import Mathlib

/-!
Shallow embedding of `src/src/lnp/presentation/tlv.rs` (lnp-core TLV
stream decoder): `TypeId`, `RawRecord`, `Stream` (the record container),
`Unmarshaller` with its `unmarshall` decode loop and `raw_parser`
fallback.  Byte sources (`io::Read`) are modelled as `List Nat` of bytes,
consumed from the front; fallible operations return `Except`.
-/

namespace LnpTlv

/-- Modelled from the spec: `lightning::ln::msgs::DecodeError`, the error
type of the external variable-length-integer collaborator.  Per §4.2 the
decoder distinguishes the clean boundary "zero bytes remained before any
byte of this integer was consumed" (`ShortRead`) from every other failure
(non-minimal encoding, or bytes running out partway through), modelled as
`InvalidValue`. -/
inductive DecodeError where
  | ShortRead
  | InvalidValue
deriving DecidableEq, Repr

/-- Modelled from the spec: `super::Error`, the error type of the
presentation layer (its definition is outside `src/`); the variants are
exactly those the decode loop in `tlv.rs` produces by name, plus the
`From<DecodeError>` wrapping (`Decode`) and a stand-in (`Other`) for the
remaining, pass-through error kinds a registered known-type decoder may
return (opaque to the core per §7). -/
inductive Error where
  | TlvStreamWrongOrder
  | TlvStreamDuplicateItem
  | TlvRecordEvenType
  | TlvRecordInvalidLen
  | Decode (e : DecodeError)
  | Other (n : Nat)
deriving DecidableEq, Repr

/-- TLV type field value: newtype over `u64` (`wrapper!(TypeId, u64, ...)`).
Values produced by the varint reader are below `2 ^ 64` by construction. -/
abbrev TypeId := Nat

/-- `TypeId::is_even`: `self.0 % 2 == 0`. -/
def TypeId.is_even (t : TypeId) : Bool := t % 2 == 0

/-- `TypeId::is_odd`: `!self.is_even()`. -/
def TypeId.is_odd (t : TypeId) : Bool := ! t.is_even

/-- Unknown TLV record represented by raw bytes
(`wrapper!(RawRecord, Vec<u8>, ...)`). -/
abbrev RawRecord := List Nat

/-- Models `Arc<dyn Any>`: a type-erased value carrying the runtime kind
tag of the concrete Rust type (`Any::type_id`) together with its data,
so that `downcast_ref` can be modelled by a tag comparison. -/
structure DynAny where
  kind : Nat
  data : List Nat
deriving DecidableEq, Repr

/-- The runtime kind tag of `RawRecord` values. -/
def rawRecordKind : Nat := 0

/-- The `Arc<dyn Any>` the raw fallback produces: `Arc::new(RawRecord(buf))`. -/
def mkRawRecord (r : RawRecord) : DynAny := ⟨rawRecordKind, r⟩

/-- `Arc<dyn Any>::downcast_ref::<T>()`: succeeds exactly when the stored
value's runtime kind tag equals the statically requested one. -/
def downcast_ref (k : Nat) (v : DynAny) : Option (List Nat) :=
  if v.kind == k then some v.data else none

/-- `Stream(BTreeMap<TypeId, Arc<dyn Any>>)`: the record container,
modelled as a key-sorted association list (the `BTreeMap`). -/
structure Stream where
  records : List (TypeId × DynAny)
deriving DecidableEq, Repr

/-- `BTreeMap::get`: first (only) binding of the key. -/
def assocFind : List (TypeId × DynAny) → TypeId → Option DynAny
  | [], _ => none
  | (k, v) :: rest, t => if k == t then some v else assocFind rest t

/-- `BTreeMap::insert`: replace the binding if present, else insert in key
order; returns the previous binding's presence through `Stream.insert`. -/
def assocInsert : List (TypeId × DynAny) → TypeId → DynAny → List (TypeId × DynAny)
  | [], t, v => [(t, v)]
  | (k, w) :: rest, t, v =>
    if t < k then (t, v) :: (k, w) :: rest
    else if t == k then (t, v) :: rest
    else (k, w) :: assocInsert rest t v

/-- `Stream::new()` (= `Self::default()`): the empty container. -/
def Stream.new : Stream := ⟨[]⟩

/-- `Stream::contains_key`. -/
def Stream.contains_key (s : Stream) (t : TypeId) : Bool :=
  (assocFind s.records t).isSome

/-- `self.0.get(type_id)` inside `Stream::get`. -/
def Stream.find (s : Stream) (t : TypeId) : Option DynAny :=
  assocFind s.records t

/-- `Stream::get::<T>`: `self.0.get(type_id).and_then(|v| v.downcast_ref::<T>())`,
with the statically expected type `T` given by its runtime kind tag. -/
def Stream.get (s : Stream) (k : Nat) (t : TypeId) : Option (List Nat) :=
  (s.find t).bind (downcast_ref k)

/-- `Stream::insert`: stores the value and reports whether the key was
absent beforehand (`self.0.insert(..).is_none()`). -/
def Stream.insert (s : Stream) (t : TypeId) (v : DynAny) : Stream × Bool :=
  (⟨assocInsert s.records t v⟩, ! s.contains_key t)

/-- Modelled from the spec: the protocol-wide maximum record length
`crate::lnp::LNP_MSG_MAX_LEN` (outside `src/`), the governing protocol's
message-size ceiling (Lightning transport maximum message length
`0xFFFF`).  The theorems below treat it symbolically except in concrete
witnesses. -/
def LNP_MSG_MAX_LEN : Nat := 0xFFFF

/-- Big-endian value of a byte list (most significant byte first). -/
def beVal (bs : List Nat) : Nat := bs.foldl (fun acc b => acc * 256 + b) 0

/-- Modelled from the spec: `BigSize::read` of the external
variable-length-integer collaborator (BOLT "BigSize": one byte below
`0xfd`, or a `0xfd`/`0xfe`/`0xff` marker followed by a 2/4/8-byte
big-endian value, minimally encoded).  `ShortRead` is returned exactly
when zero bytes remain before any byte is consumed (§4.2); any other
failure — a non-minimal encoding or bytes running out partway through —
is `InvalidValue`. -/
def bigSizeRead (bytes : List Nat) : Except DecodeError (Nat × List Nat) :=
  match bytes with
  | [] => .error .ShortRead
  | b :: rest =>
    if b < 0xfd then .ok (b, rest)
    else if b == 0xfd then
      if rest.length < 2 then .error .InvalidValue
      else if beVal (rest.take 2) < 0xfd then .error .InvalidValue
      else .ok (beVal (rest.take 2), rest.drop 2)
    else if b == 0xfe then
      if rest.length < 4 then .error .InvalidValue
      else if beVal (rest.take 4) < 0x10000 then .error .InvalidValue
      else .ok (beVal (rest.take 4), rest.drop 4)
    else
      if rest.length < 8 then .error .InvalidValue
      else if beVal (rest.take 8) < 0x100000000 then .error .InvalidValue
      else .ok (beVal (rest.take 8), rest.drop 8)

/-- Supports the reader model: on success `bigSizeRead` consumes at least
the marker byte, so the remainder is strictly shorter than the input. -/
def bigSizeRead_lt : ∀ bs n r, bigSizeRead bs = .ok (n, r) → r.length < bs.length := by
  intro bs n r h
  match bs with
  | [] => simp [bigSizeRead] at h
  | b :: rest =>
    simp only [bigSizeRead] at h
    split at h
    · cases h; simp
    · split at h
      · split at h
        · cases h
        · split at h
          · cases h
          · cases h
            have := List.length_drop 2 rest
            simp only [this, List.length_cons]
            omega
      · split at h
        · split at h
          · cases h
          · split at h
            · cases h
            · cases h
              have := List.length_drop 4 rest
              simp only [this, List.length_cons]
              omega
        · split at h
          · cases h
          · split at h
            · cases h
            · cases h
              have := List.length_drop 8 rest
              simp only [this, List.length_cons]
              omega

/-- `UnmarshallFn<R, Error>`: a decode function over the byte source,
returning the decoded type-erased value and the remaining bytes.  The
bundled bound models that Rust's `io::Read` only ever consumes bytes —
a parser cannot lengthen the source (used for termination of the loop). -/
def ParserFn :=
  { f : List Nat → Except Error (DynAny × List Nat) //
    ∀ bytes v rest, f bytes = .ok (v, rest) → rest.length ≤ bytes.length }

/-- `Unmarshaller::raw_parser`: read a length (`BigSize::read(..)?`, the
`?` wrapping `DecodeError` into `Error`), reject lengths above
`LNP_MSG_MAX_LEN` with `Error::TlvRecordInvalidLen` before touching the
payload, then `read_exact` that many bytes (failure mapped to
`Error::TlvRecordInvalidLen`) and wrap them as a `RawRecord`. -/
def rawParser (bytes : List Nat) : Except Error (DynAny × List Nat) :=
  match bigSizeRead bytes with
  | .error e => .error (.Decode e)
  | .ok (len, rest) =>
    if len > LNP_MSG_MAX_LEN then .error .TlvRecordInvalidLen
    else if rest.length < len then .error .TlvRecordInvalidLen
    else .ok (mkRawRecord (rest.take len), rest.drop len)

/-- `Unmarshaller::raw_parser` packaged as an `UnmarshallFn`. -/
def rawParserFn : ParserFn :=
  ⟨rawParser, by
    intro bytes v rest h
    unfold rawParser at h
    split at h
    · cases h
    · rename_i n r hb
      have hlt := bigSizeRead_lt bytes n r hb
      split at h
      · cases h
      · split at h
        · cases h
        · cases h
          have := List.length_drop n r
          omega⟩

/-- A representative registered known-type decoder (the registry's
decode functions are supplied by callers, outside this file's source):
it reads a length then exactly that many payload bytes, producing a
value of runtime kind `kind` — the shape every TLV known-type decoder
shares. -/
def sampleDecoder (kind : Nat) : ParserFn :=
  ⟨fun bytes =>
    match bigSizeRead bytes with
    | .error e => .error (.Decode e)
    | .ok (len, rest) =>
      if rest.length < len then .error .TlvRecordInvalidLen
      else .ok (⟨kind, rest.take len⟩, rest.drop len), by
    intro bytes v rest h
    dsimp only at h
    split at h
    · cases h
    · rename_i n r hb
      have hlt := bigSizeRead_lt bytes n r hb
      split at h
      · cases h
      · cases h
        have := List.length_drop n r
        omega⟩

/-- `Unmarshaller<R>`: the registry of known-type decode functions
(`known_types: BTreeMap<TypeId, UnmarshallFn>`) plus the raw fallback. -/
structure Unmarshaller where
  known_types : List (TypeId × ParserFn)
  rawP : ParserFn

/-- `self.known_types.get(&type_id)`. -/
def lookupParser : List (TypeId × ParserFn) → TypeId → Option ParserFn
  | [], _ => none
  | (k, p) :: rest, t => if k == t then some p else lookupParser rest t

/-- `Unmarshaller::new()`: empty registry, `raw_parser` as the fallback. -/
def Unmarshaller.new : Unmarshaller := ⟨[], rawParserFn⟩

/-- The body of `Unmarshaller::unmarshall`'s `loop`, with the loop turned
into structural recursion on a fuel argument.  Each iteration mirrors the
source's `match` arms in order: `Err(ShortRead)` ends with `Ok(tlv)`; any
other varint error is wrapped and returned; `type_id > prev_type_id`
breaks with `TlvStreamWrongOrder`; `tlv.contains_key` breaks with
`TlvStreamDuplicateItem`; otherwise dispatch on the registry — known
parser errors propagate via `?`, an unknown even type breaks with
`TlvRecordEvenType`, an unknown odd type runs the raw fallback — then
`tlv.insert(type_id, rec)` and `prev_type_id = type_id`.  A successful
iteration consumes at least one byte of the source (the type field), and
parsers never lengthen it, so fuel `length + 1` makes the fuel-exhaustion
case (`.ok tlv`, coinciding with the empty-source arm) unreachable — see
`unmarshallGo_fuel_irrelevant`. -/
def unmarshallGo (u : Unmarshaller) : Nat → Stream → TypeId → List Nat → Except Error Stream
  | 0, tlv, _, _ => .ok tlv
  | fuel + 1, tlv, prev, bytes =>
    match bigSizeRead bytes with
    | .error .ShortRead => .ok tlv
    | .error e => .error (.Decode e)
    | .ok (type_id, rest) =>
      if type_id > prev then .error .TlvStreamWrongOrder
      else if tlv.contains_key type_id then .error .TlvStreamDuplicateItem
      else
        match lookupParser u.known_types type_id with
        | some p =>
          match p.val rest with
          | .error e => .error e
          | .ok (rec, rest2) =>
            unmarshallGo u fuel (tlv.insert type_id rec).1 type_id rest2
        | none =>
          if TypeId.is_even type_id then .error .TlvRecordEvenType
          else
            match u.rawP.val rest with
            | .error e => .error e
            | .ok (rec, rest2) =>
              unmarshallGo u fuel (tlv.insert type_id rec).1 type_id rest2

/-- `Unmarshaller::unmarshall`: `Stream::new()`, `prev_type_id = TypeId(0)`,
then the loop (`unmarshallGo`) with sufficient fuel. -/
def Unmarshaller.unmarshall (u : Unmarshaller) (bytes : List Nat) : Except Error Stream :=
  unmarshallGo u (bytes.length + 1) Stream.new 0 bytes

/-- A concrete unmarshaller whose registry knows type id `0` (decoded by
`sampleDecoder` producing values of kind `1`); used by concrete
counterexamples and witnesses. -/
def demoUnmarshaller : Unmarshaller := ⟨[(0, sampleDecoder 1)], rawParserFn⟩

/-- Big-endian byte representation of `v` on `n` bytes (most significant
first); the inverse of `beVal` for values below `256 ^ n`. -/
def toBE : Nat → Nat → List Nat
  | 0, _ => []
  | n + 1, v => (v / 256 ^ n) % 256 :: toBE n v

/-- Modelled from the spec: the canonical (minimal) BigSize encoding of a
value, as produced by a conformant encoder counterpart; used to state
claims that quantify over "valid canonical encodings". -/
def bigSizeEncode (v : Nat) : List Nat :=
  if v < 0xfd then [v]
  else if v < 0x10000 then 0xfd :: toBE 2 v
  else if v < 0x100000000 then 0xfe :: toBE 4 v
  else 0xff :: toBE 8 v

theorem toBE_length (n v : Nat) : (toBE n v).length = n := by
  induction n with
  | zero => rfl
  | succ n ih => simp [toBE, ih]

theorem beVal_toBE_general (n acc v : Nat) :
    (toBE n v).foldl (fun a b => a * 256 + b) acc = acc * 256 ^ n + v % 256 ^ n := by
  induction n generalizing acc with
  | zero => simp [toBE, Nat.mod_one]
  | succ n ih =>
    simp only [toBE, List.foldl_cons, ih]
    have h256 : (256 : Nat) ^ (n + 1) = 256 ^ n * 256 := by ring
    have hmod : v % 256 ^ (n + 1) = v % 256 ^ n + 256 ^ n * (v / 256 ^ n % 256) := by
      rw [h256, Nat.mod_mul]
    rw [hmod]
    ring

theorem beVal_toBE (n v : Nat) (h : v < 256 ^ n) : beVal (toBE n v) = v := by
  unfold beVal
  rw [beVal_toBE_general]
  simp [Nat.mod_eq_of_lt h]

theorem take_drop_of_length {α : Type} (l r : List α) (n : Nat) (h : l.length = n) :
    (l ++ r).take n = l ∧ (l ++ r).drop n = r := by
  subst h
  exact ⟨List.take_left l r, List.drop_left l r⟩

/-- Round trip: reading a canonical BigSize encoding yields the encoded
value and leaves exactly the trailing bytes. -/
theorem bigSizeRead_encode (v : Nat) (rest : List Nat) (hv : v < 2 ^ 64) :
    bigSizeRead (bigSizeEncode v ++ rest) = .ok (v, rest) := by
  unfold bigSizeEncode
  split
  · rename_i h1
    simp [bigSizeRead, h1]
  · rename_i h1
    split
    · rename_i h2
      have hlen := toBE_length 2 v
      obtain ⟨ht, hd⟩ := take_drop_of_length (toBE 2 v) rest 2 hlen
      have hval : beVal (toBE 2 v) = v := beVal_toBE 2 v (by omega)
      simp only [bigSizeRead, List.cons_append, List.length_append, hlen, ht, hd, hval]
      norm_num [h1]
    · rename_i h2
      split
      · rename_i h3
        have hlen := toBE_length 4 v
        obtain ⟨ht, hd⟩ := take_drop_of_length (toBE 4 v) rest 4 hlen
        have hval : beVal (toBE 4 v) = v := beVal_toBE 4 v (by omega)
        simp only [bigSizeRead, List.cons_append, List.length_append, hlen, ht, hd, hval]
        norm_num [h2]
      · rename_i h3
        have hlen := toBE_length 8 v
        obtain ⟨ht, hd⟩ := take_drop_of_length (toBE 8 v) rest 8 hlen
        have hval : beVal (toBE 8 v) = v := beVal_toBE 8 v (by
          have : (256 : Nat) ^ 8 = 2 ^ 64 := by norm_num
          omega)
        simp only [bigSizeRead, List.cons_append, List.length_append, hlen, ht, hd, hval]
        norm_num [h3]

/-- Any fuel beyond the source's length yields the same decode result: a
successful iteration strictly consumes bytes (`bigSizeRead_lt`) and
parsers never lengthen the source (the bound bundled in `ParserFn`), so
the fuel-exhaustion case of `unmarshallGo` is unreachable from
`Unmarshaller.unmarshall`, which passes `length + 1`. -/
theorem unmarshallGo_fuel_irrelevant (u : Unmarshaller) :
    ∀ (fuel1 fuel2 : Nat) (tlv : Stream) (prev : TypeId) (bytes : List Nat),
      bytes.length < fuel1 → bytes.length < fuel2 →
      unmarshallGo u fuel1 tlv prev bytes = unmarshallGo u fuel2 tlv prev bytes := by
  intro fuel1
  induction fuel1 with
  | zero => intro fuel2 tlv prev bytes h1 h2; omega
  | succ f ih =>
    intro fuel2 tlv prev bytes h1 h2
    cases fuel2 with
    | zero => omega
    | succ m =>
      simp only [unmarshallGo]
      cases hb : bigSizeRead bytes with
      | error e => cases e <;> rfl
      | ok pr =>
        obtain ⟨t, rest⟩ := pr
        have hrest := bigSizeRead_lt bytes t rest hb
        by_cases hord : t > prev
        · simp [hord]
        · simp only [if_neg hord]
          by_cases hdup : tlv.contains_key t = true
          · simp [hdup]
          · simp only [Bool.not_eq_true] at hdup
            simp only [hdup]
            cases hl : lookupParser u.known_types t with
            | some p =>
              cases hp : p.val rest with
              | error e => simp [hp]
              | ok pr2 =>
                obtain ⟨rec, rest2⟩ := pr2
                have hle := p.2 rest rec rest2 hp
                simp only [hp, Bool.false_eq_true, if_false]
                exact ih m (tlv.insert t rec).1 t rest2 (by omega) (by omega)
            | none =>
              by_cases heven : TypeId.is_even t = true
              · simp [heven]
              · simp only [Bool.not_eq_true] at heven
                simp only [heven]
                cases hp : u.rawP.val rest with
                | error e => simp [hp]
                | ok pr2 =>
                  obtain ⟨rec, rest2⟩ := pr2
                  have hle := u.rawP.2 rest rec rest2 hp
                  simp only [hp, Bool.false_eq_true, if_false]
                  exact ih m (tlv.insert t rec).1 t rest2 (by omega) (by omega)

/-- C1: the claim says a stream whose type ids are strictly increasing and
canonically encoded decodes successfully; the code rejects it.  Evaluation
at the failing input `[0x01, 0x00]` — a single record of type id 1
(strictly increasing, canonical type and length fields, empty payload),
which per the claim must decode to a `RecordStream` holding a `RawRecord`
under id 1: the inverted ordering guard (`type_id > prev_type_id` with
`prev_type_id` initialised to 0 breaks with the error) instead fails with
`TlvStreamWrongOrder`, contradicting the code's own comment that decoding
"MUST fail" only when types are *not* monotonically increasing. -/
theorem C1_code_result :
    Unmarshaller.new.unmarshall [1, 0] = .error .TlvStreamWrongOrder := by rfl

/-- C2: the claim says a stream in which a record's type id is not
strictly greater than the previously accepted one fails with `WrongOrder`.
Evaluation at the failing input: registry knowing type 0, bytes
`[0, 0, 0, 0]` (two records of type id 0 — the second violates strict
increase): the code fails with `TlvStreamDuplicateItem`, not
`TlvStreamWrongOrder`; the inverted guard reserves `WrongOrder` for
increasing ids, contradicting the code's own comments. -/
theorem C2_code_result :
    demoUnmarshaller.unmarshall [0, 0, 0, 0] = .error .TlvStreamDuplicateItem
      ∧ Error.TlvStreamDuplicateItem ≠ Error.TlvStreamWrongOrder :=
  ⟨by rfl, by decide⟩

/-- C3 counterexample: the stream `[0, 0, 5, 0, 0, 0]` (records of type
ids 0, 5, 0 — it contains two records of type id 0 and the first of them
is accepted by a registry knowing type 0) does not fail with
`TlvStreamDuplicateItem` as the claim states: the intervening record of
type id 5 terminates the decode with `TlvStreamWrongOrder` before the
duplicate occurrence is ever read. -/
theorem C3_counterexample :
    demoUnmarshaller.unmarshall [0, 0, 5, 0, 0, 0] = .error .TlvStreamWrongOrder
      ∧ Error.TlvStreamWrongOrder ≠ Error.TlvStreamDuplicateItem :=
  ⟨by rfl, by decide⟩

/-- C3 (amended): whenever the decode loop actually reads a type id that
passes the ordering guard but is already present in the accumulated
stream — in particular when a record duplicating an already accepted one
is reached — the decode fails with `TlvStreamDuplicateItem`,
independently of which decoders are registered (the unmarshaller `u` is
arbitrary; the duplicate check precedes dispatch). -/
theorem C3_duplicate_reached_fails (u : Unmarshaller) (fuel : Nat) (tlv : Stream)
    (prev : TypeId) (bytes : List Nat) (t : TypeId) (rest : List Nat)
    (h : bigSizeRead bytes = .ok (t, rest)) (hord : ¬ t > prev)
    (hdup : tlv.contains_key t = true) :
    unmarshallGo u (fuel + 1) tlv prev bytes = .error .TlvStreamDuplicateItem := by
  simp only [unmarshallGo]
  rw [h]
  simp [hord, hdup]

/-- C3 witness: with type id 0 already accepted (present in the stream)
and the next record again of type id 0, the loop fails with
`TlvStreamDuplicateItem`. -/
theorem C3_witness :
    unmarshallGo Unmarshaller.new 1 ⟨[(0, ⟨1, []⟩)]⟩ 0 [0, 0]
      = .error .TlvStreamDuplicateItem :=
  C3_duplicate_reached_fails Unmarshaller.new 0 ⟨[(0, ⟨1, []⟩)]⟩ 0 [0, 0] 0 [0]
    (by rfl) (by decide) (by rfl)

/-- C4 counterexample: the stream `[2, 0]` — a single record of the
unregistered even type id 2 — does not fail with `TlvRecordEvenType` as
the claim states for every unknown even record: the inverted ordering
guard rejects it first with `TlvStreamWrongOrder`. -/
theorem C4_counterexample :
    Unmarshaller.new.unmarshall [2, 0] = .error .TlvStreamWrongOrder
      ∧ Error.TlvStreamWrongOrder ≠ Error.TlvRecordEvenType :=
  ⟨by rfl, by decide⟩

/-- C4 (amended): when the decode loop dispatches a record — its type id
having passed the ordering and duplicate checks — that id being absent
from the registry and even makes the decode fail with
`TlvRecordEvenType`; and for a registered type id the dispatch step never
raises that error itself: any failure is the registered decoder's own
error, propagated unchanged. -/
theorem C4_even_unknown_dispatch :
    (∀ (u : Unmarshaller) (fuel : Nat) (tlv : Stream) (prev : TypeId)
       (bytes : List Nat) (t : TypeId) (rest : List Nat),
       bigSizeRead bytes = .ok (t, rest) → ¬ t > prev →
       tlv.contains_key t = false → lookupParser u.known_types t = none →
       TypeId.is_even t = true →
       unmarshallGo u (fuel + 1) tlv prev bytes = .error .TlvRecordEvenType)
    ∧ (∀ (u : Unmarshaller) (fuel : Nat) (tlv : Stream) (prev : TypeId)
       (bytes : List Nat) (t : TypeId) (rest : List Nat) (p : ParserFn) (e : Error),
       bigSizeRead bytes = .ok (t, rest) → ¬ t > prev →
       tlv.contains_key t = false → lookupParser u.known_types t = some p →
       p.val rest = .error e →
       unmarshallGo u (fuel + 1) tlv prev bytes = .error e) := by
  constructor
  · intro u fuel tlv prev bytes t rest h hord hdup hreg heven
    simp only [unmarshallGo]
    rw [h]
    simp [hord, hdup, hreg, heven]
  · intro u fuel tlv prev bytes t rest p e h hord hdup hreg hp
    simp only [unmarshallGo]
    rw [h]
    simp [hord, hdup, hreg, hp]

/-- C4 witness: an empty-registry decode of `[0, 5]` dispatches type id 0
(which passes both checks), finds it unknown and even, and fails with
`TlvRecordEvenType`. -/
theorem C4_witness :
    unmarshallGo Unmarshaller.new 1 Stream.new 0 [0, 5] = .error .TlvRecordEvenType :=
  C4_even_unknown_dispatch.1 Unmarshaller.new 0 Stream.new 0 [0, 5] 0 [5]
    (by rfl) (by decide) (by rfl) (by rfl) (by rfl)

/-- C5: the claim says an unknown odd record of declared length L with L
bytes available decodes to a `RawRecord` holding those bytes.  Evaluation
at the failing input `[0x01, 0x02, 0xab, 0xcd]` (type id 1 — unknown,
odd — length 2, payload `ab cd`): the raw fallback itself would succeed
and preserve the bytes (second conjunct), but the decode loop never
reaches it — the inverted ordering guard rejects the odd id 1 (> 0) with
`TlvStreamWrongOrder` (first conjunct), contradicting the code's own
comments on the unknown-odd branch. -/
theorem C5_code_result :
    Unmarshaller.new.unmarshall [1, 2, 0xab, 0xcd] = .error .TlvStreamWrongOrder
      ∧ rawParser [2, 0xab, 0xcd] = .ok (mkRawRecord [0xab, 0xcd], []) :=
  ⟨by rfl, by rfl⟩

/-- C6: a raw record whose declared length exceeds `LNP_MSG_MAX_LEN` is
rejected by the raw-record decode (`raw_parser`) with the oversize error
(`Error::TlvRecordInvalidLen`, raised at the ceiling check) whatever
bytes follow the length field — in particular for an empty remainder —
so no declared-length byte is read and no buffer filled before failing. -/
theorem C6_oversized_rejected_before_reading (len : Nat) (payload : List Nat)
    (hover : LNP_MSG_MAX_LEN < len) (hlt : len < 2 ^ 64) :
    rawParser (bigSizeEncode len ++ payload) = .error .TlvRecordInvalidLen := by
  unfold rawParser
  rw [bigSizeRead_encode len payload hlt]
  simp [hover]

/-- C6 witness: declared length `0x10000` (one above the `0xFFFF`
ceiling) with no payload bytes at all is rejected as oversized. -/
theorem C6_witness :
    rawParser (bigSizeEncode 0x10000 ++ []) = .error .TlvRecordInvalidLen :=
  C6_oversized_rejected_before_reading 0x10000 [] (by decide) (by norm_num)

/-- C7 counterexample: the error kinds are not distinct as the claim
states — a truncated record (declared length 2, one byte available) and
an oversized record (declared length `0x10000`) both fail with the same
variant `Error::TlvRecordInvalidLen`. -/
theorem C7_counterexample :
    rawParser [2, 0xab] = .error .TlvRecordInvalidLen
      ∧ rawParser [0xfe, 0, 1, 0, 0] = .error .TlvRecordInvalidLen :=
  ⟨by rfl, by rfl⟩

/-- C7 (amended): a raw record whose declared length N is within the
ceiling but with fewer than N bytes remaining fails — with
`Error::TlvRecordInvalidLen`, the same error variant the code uses for
oversized lengths (the spec's `TruncatedRecord` and `OversizedLength`
are not distinct kinds in the code). -/
theorem C7_truncated_fails_same_kind (bytes : List Nat) (len : Nat) (rest : List Nat)
    (h : bigSizeRead bytes = .ok (len, rest)) (hmax : len ≤ LNP_MSG_MAX_LEN)
    (hshort : rest.length < len) :
    rawParser bytes = .error .TlvRecordInvalidLen := by
  unfold rawParser
  rw [h]
  simp only [gt_iff_lt]
  rw [if_neg (by omega), if_pos hshort]

/-- C7 witness: declared length 2 with a single byte available fails with
`TlvRecordInvalidLen`. -/
theorem C7_witness : rawParser [2, 0xab] = .error .TlvRecordInvalidLen :=
  C7_truncated_fails_same_kind [2, 0xab] 2 [0xab] (by rfl) (by decide) (by decide)

/-- C8: an empty byte source decodes to the empty `RecordStream` for any
unmarshaller; and more generally, whenever the varint decoder reports the
clean boundary (`DecodeError::ShortRead` — zero bytes remain) while
reading a type id, the loop terminates successfully with the stream
accumulated so far. -/
theorem C8_clean_boundary_success :
    (∀ u : Unmarshaller, u.unmarshall [] = .ok Stream.new)
    ∧ (∀ (u : Unmarshaller) (fuel : Nat) (tlv : Stream) (prev : TypeId)
        (bytes : List Nat), bigSizeRead bytes = .error .ShortRead →
        unmarshallGo u (fuel + 1) tlv prev bytes = .ok tlv) := by
  constructor
  · intro u
    rfl
  · intro u fuel tlv prev bytes h
    simp only [unmarshallGo]
    rw [h]

/-- C8 witness: the loop on the exhausted source returns the accumulated
stream (here the empty one) with no error. -/
theorem C8_witness :
    unmarshallGo Unmarshaller.new 1 Stream.new 0 [] = .ok Stream.new :=
  C8_clean_boundary_success.2 Unmarshaller.new 0 Stream.new 0 [] (by rfl)

/-- C9: `Stream::get` returns the stored value exactly when the type id is
present and the stored value's runtime kind is the requested one: an
absent key yields `none`, and a present value of a different kind also
yields `none` (the `downcast_ref` comparison) — it is a total function,
never an error. -/
theorem C9_get_semantics (s : Stream) (k : Nat) (t : TypeId) :
    (s.find t = none → s.get k t = none)
    ∧ (∀ dv : DynAny, s.find t = some dv →
        s.get k t = if dv.kind == k then some dv.data else none) := by
  constructor
  · intro h
    simp [Stream.get, h]
  · intro dv h
    simp [Stream.get, h, downcast_ref]

/-- C9 witness: a stream holding a value of kind 7 under type id 3
returns its data for the matching requested kind. -/
theorem C9_witness : Stream.get ⟨[(3, ⟨7, [9]⟩)]⟩ 7 3 = some [9] := by
  have h := (C9_get_semantics ⟨[(3, ⟨7, [9]⟩)]⟩ 7 3).2 ⟨7, [9]⟩ (by rfl)
  simpa using h

/-- C10: for every unmarshaller, a stream whose first record carries a
validly encoded nonzero type id fails with `TlvStreamWrongOrder`: the
ordering baseline `prev_type_id` is initialised to `TypeId(0)` and the
guard breaks on any id greater than the baseline, so only a first record
of type id 0 can ever be accepted. -/
theorem C10_nonzero_first_type_rejected (u : Unmarshaller) (t : TypeId) (rest : List Nat)
    (hne : t ≠ 0) (hlt : t < 2 ^ 64) :
    u.unmarshall (bigSizeEncode t ++ rest) = .error .TlvStreamWrongOrder := by
  unfold Unmarshaller.unmarshall
  simp only [unmarshallGo]
  rw [bigSizeRead_encode t rest hlt]
  simp [Nat.pos_of_ne_zero hne]

/-- C10 witness: the first record of type id 1 is rejected with
`TlvStreamWrongOrder` even by the default unmarshaller. -/
theorem C10_witness :
    Unmarshaller.new.unmarshall (bigSizeEncode 1 ++ []) = .error .TlvStreamWrongOrder :=
  C10_nonzero_first_type_rejected Unmarshaller.new 1 [] (by decide) (by norm_num)

end LnpTlv
